import Mathlib

/-!
Shallow embedding of `src/main.py`: a personal spending / calorie tracker.

Modelling conventions:
* Python numbers (`int` / `float` amounts, limits, rates) are embedded as `ℚ`.
* `datetime.date` is a `Date` structure (year, month, day); Python date
  subtraction `(a - b).days` is the difference of proleptic-Gregorian
  ordinals, exactly as `datetime.date.toordinal` computes it.
* The ambient clock `dt.datetime.now().date()` is passed explicitly as a
  `today : Date` parameter (the program is single-threaded and each method
  call reads a single current date).
* Fallible Python code (a `ValueError` from `strptime`, a
  `ZeroDivisionError` from `/=`) is embedded as `Option`: `none` is an
  uncaught exception propagating to the caller.
* The human-readable result strings are embedded as structured messages
  (an inductive type carrying the numeric value and the currency label),
  since the claims are about which branch fires, which value is shown and
  which label is used, not about byte-level text.
-/

/-- A calendar date, as `datetime.date`: year, month, day. -/
structure Date where
  year : ℕ
  month : ℕ
  day : ℕ
  deriving DecidableEq

/-- Gregorian leap-year test, as `calendar.isleap` / `datetime`. -/
def Date.isLeap (y : ℕ) : Bool :=
  y % 4 = 0 && (y % 100 ≠ 0 || y % 400 = 0)

/-- Days in a month of a given year (proleptic Gregorian). -/
def Date.daysInMonth (y m : ℕ) : ℕ :=
  if m = 2 then (if Date.isLeap y then 29 else 28)
  else if m = 4 ∨ m = 6 ∨ m = 9 ∨ m = 11 then 30
  else 31

/-- Days in year `y` strictly before month `m`. -/
def Date.daysBeforeMonth (y m : ℕ) : ℕ :=
  ((List.range (m - 1)).map (fun i => Date.daysInMonth y (i + 1))).sum

/-- Proleptic Gregorian ordinal of a date, as `datetime.date.toordinal`
(January 1 of year 1 has ordinal 1). -/
def Date.toOrdinal (d : Date) : ℕ :=
  365 * (d.year - 1) + (d.year - 1) / 4 - (d.year - 1) / 100 + (d.year - 1) / 400
    + Date.daysBeforeMonth d.year d.month + d.day

/-- Python date subtraction: `(a - b).days` for `datetime.date` values. -/
def Date.sub (a b : Date) : ℤ :=
  (a.toOrdinal : ℤ) - (b.toOrdinal : ℤ)

/-- Validity of a `datetime.date`: what the `date` constructor accepts
(`MINYEAR = 1`, `MAXYEAR = 9999`, month in range, day fits the month). -/
def Date.valid (d : Date) : Prop :=
  1 ≤ d.year ∧ d.year ≤ 9999 ∧ 1 ≤ d.month ∧ d.month ≤ 12 ∧
    1 ≤ d.day ∧ d.day ≤ Date.daysInMonth d.year d.month

instance (d : Date) : Decidable d.valid := by
  unfold Date.valid; infer_instance

/-- Split a character list at every dot, handling the single-character
separator used by the %d.%m.%Y format. -/
def splitDots : List Char → List (List Char)
  | [] => [[]]
  | c :: rest =>
    let r := splitDots rest
    if c = '.' then [] :: r
    else
      match r with
      | [] => [[c]]
      | h :: t => (c :: h) :: t

/-- Numeric value of a list of decimal digit characters. -/
def digitsToNat (cs : List Char) : ℕ :=
  cs.foldl (fun a c => a * 10 + (c.toNat - 48)) 0

/-- A field of the `strptime` pattern: between `minLen` and `maxLen`
decimal digits. -/
def digitField (cs : List Char) (minLen maxLen : ℕ) : Option ℕ :=
  if minLen ≤ cs.length ∧ cs.length ≤ maxLen ∧ cs.all Char.isDigit then
    some (digitsToNat cs)
  else none

/-- Model of parsing with the fixed %d.%m.%Y format and taking the date
part, as the source does at Record construction: the CPython parsing
regular expression takes one or two digits for %d (value 1..31) and %m
(value 1..12) and exactly four digits for %Y, then the date constructor
validates the day against the month, raising a parse error (`none`)
otherwise. -/
def strptimeDMY (s : String) : Option Date :=
  match splitDots s.toList with
  | [ds, ms, ys] =>
    match digitField ds 1 2, digitField ms 1 2, digitField ys 4 4 with
    | some d, some m, some y =>
      if 1 ≤ d ∧ d ≤ 31 ∧ 1 ≤ m ∧ m ≤ 12 then
        if 1 ≤ y ∧ d ≤ Date.daysInMonth y m then some ⟨y, m, d⟩ else none
      else none
    | _, _, _ => none
  | _ => none

/-- A dated amount entry: class `Record` of `src/main.py`. -/
structure Record where
  amount : ℚ
  comment : String
  date : Date
  deriving DecidableEq

/-- Record construction: the textual `date` argument defaults to the empty
string; a falsy (empty) `date` resolves to the current date, otherwise the
string is parsed with the fixed %d.%m.%Y format; a parse failure is an
uncaught error (`none`). -/
def Record.init (today : Date) (amount : ℚ) (comment : String)
    (date : String) : Option Record :=
  if date = "" then some ⟨amount, comment, today⟩
  else
    match strptimeDMY date with
    | some d => some ⟨amount, comment, d⟩
    | none => none

/-- Class `Calculator` of `src/main.py`: a limit and a list of records. -/
structure Calculator where
  limit : ℚ
  records : List Record

/-- Constructor `Calculator.__init__(limit)`: empty record list. -/
def Calculator.mk0 (limit : ℚ) : Calculator :=
  ⟨limit, []⟩

/-- Method `Calculator.add_record`: append to `self.records`. -/
def Calculator.add_record (c : Calculator) (r : Record) : Calculator :=
  { c with records := c.records ++ [r] }

/-- Method `Calculator.get_today_stats`: loop over `self.records`, adding
`amount` whenever the record date equals the current date. -/
def Calculator.get_today_stats (c : Calculator) (today : Date) : ℚ :=
  c.records.foldl
    (fun today_stats r =>
      if r.date = today then today_stats + r.amount else today_stats) 0

/-- Method `Calculator.get_week_stats`: loop over `self.records`, adding
`amount` whenever `(today - record.date).days < 7` and
`(today - record.date).days >= 0`. -/
def Calculator.get_week_stats (c : Calculator) (today : Date) : ℚ :=
  c.records.foldl
    (fun week_stats r =>
      if Date.sub today r.date < 7 ∧ 0 ≤ Date.sub today r.date then
        week_stats + r.amount
      else week_stats) 0

/-- Structured form of the result string of `get_calories_remained`:
either the message naming the remaining calories, or the fixed
stop-eating message. -/
inductive CaloriesMsg where
  | canEat (remaining : ℚ)
  | stopEating
  deriving DecidableEq

/-- Method `CaloriesCalculator.get_calories_remained`: remaining is
`self.limit - self.get_today_stats()`; a positive remainder is reported
verbatim (no rounding, no unit conversion), otherwise the fixed message. -/
def CaloriesCalculator.get_calories_remained (c : Calculator) (today : Date) :
    CaloriesMsg :=
  let x := c.limit - c.get_today_stats today
  if x > 0 then CaloriesMsg.canEat x else CaloriesMsg.stopEating

/-- Structured form of the result string of `get_today_cash_remained`:
the spend-up-to message (value and currency label), the fixed
no-money-left message (no value, no label), or the debt message. -/
inductive CashMsg where
  | spendUpTo (value : ℚ) (label : String)
  | noMoney
  | debt (value : ℚ) (label : String)
  deriving DecidableEq

/-- Round a rational to the nearest integer, ties to even: the rounding
used by round(x, 2) and by the .2f format specifier. -/
def roundHalfEven (q : ℚ) : ℤ :=
  if q - ⌊q⌋ < 1/2 then ⌊q⌋
  else if 1/2 < q - ⌊q⌋ then ⌊q⌋ + 1
  else if ⌊q⌋ % 2 = 0 then ⌊q⌋ else ⌊q⌋ + 1

/-- Round a rational to 2 decimal places, ties to even. -/
def round2 (q : ℚ) : ℚ :=
  (roundHalfEven (q * 100) : ℚ) / 100

/-- Class attribute `CashCalculator.USD_RATE = float(60)`. -/
def CashCalculator.USD_RATE : ℚ := 60

/-- Class attribute `CashCalculator.EURO_RATE = float(70)`. -/
def CashCalculator.EURO_RATE : ℚ := 70

/-- The final if/elif/elif chain of `get_today_cash_remained`, dispatching
on the sign of the (possibly converted) `cash_remained`: positive gives
the spend-up-to message with the value rounded to 2 decimals, zero gives
the fixed no-money message, negative gives the debt message with the
negated value shown to 2 decimals. -/
def CashCalculator.signMessage (cash_remained : ℚ) (currency_type : String) :
    CashMsg :=
  if cash_remained > 0 then
    CashMsg.spendUpTo (round2 cash_remained) currency_type
  else if cash_remained = 0 then CashMsg.noMoney
  else CashMsg.debt (round2 (-cash_remained)) currency_type

/-- Method `CashCalculator.get_today_cash_remained(currency, USD_RATE,
EURO_RATE)`: `currency_type = currency`; `cash_remained = self.limit -
self.get_today_stats()`; the usd branch divides by `USD_RATE` with label
USD, the eur branch divides by `EURO_RATE` with label Euro, the rub
branch evaluates the no-effect comparison `cash_remained == 1.00` and only
sets the label руб, any other currency falls through with no conversion
and the label still equal to the raw input; then the sign dispatch runs.
Division by a zero rate is an uncaught `ZeroDivisionError` (`none`). -/
def CashCalculator.get_today_cash_remained (c : Calculator) (today : Date)
    (currency : String) (USD_RATE EURO_RATE : ℚ) : Option CashMsg :=
  let currency_type := currency
  let cash_remained := c.limit - c.get_today_stats today
  if currency = "usd" then
    if USD_RATE = 0 then none
    else some (CashCalculator.signMessage (cash_remained / USD_RATE) "USD")
  else if currency_type = "eur" then
    if EURO_RATE = 0 then none
    else some (CashCalculator.signMessage (cash_remained / EURO_RATE) "Euro")
  else if currency_type = "rub" then
    let _comparison := decide (cash_remained = (1 : ℚ))
    some (CashCalculator.signMessage cash_remained "руб")
  else some (CashCalculator.signMessage cash_remained currency_type)

/-- The overriding method `CashCalculator.get_week_stats`: calls the base
implementation, discards its value and returns Python `None` (`none`). -/
def CashCalculator.get_week_stats (c : Calculator) (today : Date) :
    Option ℚ :=
  let _discarded := Calculator.get_week_stats c today
  none

/-- The loop of `get_today_stats`, characterised: folding from `a` adds
the sum of amounts of records dated `today`. -/
lemma today_stats_foldl (today : Date) (rs : List Record) (a : ℚ) :
    rs.foldl
        (fun today_stats r =>
          if r.date = today then today_stats + r.amount else today_stats) a
      = a + ((rs.filter (fun r => decide (r.date = today))).map
          Record.amount).sum := by
  induction rs generalizing a with
  | nil => simp
  | cons r rs ih =>
    by_cases h : r.date = today
    · simp [h, ih, add_assoc]
    · simp [h, ih]

/-- The loop of `get_week_stats`, characterised: folding from `a` adds
the sum of amounts of records in the trailing 7-day window. -/
lemma week_stats_foldl (today : Date) (rs : List Record) (a : ℚ) :
    rs.foldl
        (fun week_stats r =>
          if Date.sub today r.date < 7 ∧ 0 ≤ Date.sub today r.date then
            week_stats + r.amount
          else week_stats) a
      = a + ((rs.filter (fun r =>
          decide (0 ≤ Date.sub today r.date ∧ Date.sub today r.date < 7))).map
          Record.amount).sum := by
  induction rs generalizing a with
  | nil => simp
  | cons r rs ih =>
    by_cases h : Date.sub today r.date < 7 ∧ 0 ≤ Date.sub today r.date
    · have h' : 0 ≤ Date.sub today r.date ∧ Date.sub today r.date < 7 :=
        ⟨h.2, h.1⟩
      simp [h, h', ih, add_assoc]
    · have h' : ¬ (0 ≤ Date.sub today r.date ∧ Date.sub today r.date < 7) :=
        fun hc => h ⟨hc.2, hc.1⟩
      simp [h, h', ih]

/-- `get_today_stats` is the today-filtered sum. -/
lemma get_today_stats_eq (c : Calculator) (today : Date) :
    c.get_today_stats today
      = ((c.records.filter (fun r => decide (r.date = today))).map
          Record.amount).sum := by
  simpa using today_stats_foldl today c.records 0

/-- `get_week_stats` is the week-window-filtered sum. -/
lemma get_week_stats_eq (c : Calculator) (today : Date) :
    c.get_week_stats today
      = ((c.records.filter (fun r =>
          decide (0 ≤ Date.sub today r.date ∧ Date.sub today r.date < 7))).map
          Record.amount).sum := by
  simpa using week_stats_foldl today c.records 0

/-- Folding `add_record` over a list of records appends them in order. -/
lemma addAll_records (c : Calculator) (rs : List Record) :
    (rs.foldl Calculator.add_record c).records = c.records ++ rs := by
  induction rs generalizing c with
  | nil => simp
  | cons r rs ih => simp [ih, Calculator.add_record]

/-- C1: for every Calculator state (in particular every state reached by
adding a sequence of records to a fresh Calculator), `get_today_stats`
returns the sum of `amount` over exactly the records whose date equals the
current date at call time; when no records match it returns the numeric
zero of ℚ (it is total, not an error); and adding a record with a past
date leaves `get_today_stats` unchanged. -/
theorem spec_C1 (today : Date) (c : Calculator) :
    (∀ limit : ℚ, ∀ rs : List Record,
      (rs.foldl Calculator.add_record (Calculator.mk0 limit)).records = rs) ∧
    c.get_today_stats today
      = ((c.records.filter (fun r => decide (r.date = today))).map
          Record.amount).sum ∧
    (c.records.filter (fun r => decide (r.date = today)) = [] →
      c.get_today_stats today = 0) ∧
    (∀ r : Record, 0 < Date.sub today r.date →
      (c.add_record r).get_today_stats today = c.get_today_stats today) := by
  refine ⟨?_, get_today_stats_eq c today,
    fun h => by rw [get_today_stats_eq, h]; simp, fun r hr => ?_⟩
  · intro limit rs
    simpa [Calculator.mk0] using addAll_records (Calculator.mk0 limit) rs
  have hne : ¬ (r.date = today) := by
    intro he
    rw [he] at hr
    simp [Date.sub] at hr
  rw [get_today_stats_eq, get_today_stats_eq]
  simp [Calculator.add_record, List.filter_append, hne]

/-- C1 witness: with one record dated 2024-05-20 and today 2024-05-20,
adding a record dated 2024-05-19 (a past date) does not change
`get_today_stats`. -/
theorem spec_C1_witness :
    (Calculator.add_record ⟨1000, [⟨800, "lunch", ⟨2024, 5, 20⟩⟩]⟩
        ⟨50, "older", ⟨2024, 5, 19⟩⟩).get_today_stats ⟨2024, 5, 20⟩
      = Calculator.get_today_stats ⟨1000, [⟨800, "lunch", ⟨2024, 5, 20⟩⟩]⟩
          ⟨2024, 5, 20⟩ :=
  (spec_C1 ⟨2024, 5, 20⟩ ⟨1000, [⟨800, "lunch", ⟨2024, 5, 20⟩⟩]⟩).2.2.2
    ⟨50, "older", ⟨2024, 5, 19⟩⟩ (by decide)

/-- C2: `get_week_stats` returns the sum of `amount` over exactly the
records with `0 ≤ (today - record.date).days < 7`; adding a record dated
exactly 6 days before today adds its amount, adding one dated exactly
7 days before today changes nothing, and adding any future-dated record
(negative day difference) changes nothing. -/
theorem spec_C2 (today : Date) (c : Calculator) :
    c.get_week_stats today
      = ((c.records.filter (fun r =>
          decide (0 ≤ Date.sub today r.date ∧ Date.sub today r.date < 7))).map
          Record.amount).sum ∧
    (∀ r : Record, Date.sub today r.date = 6 →
      (c.add_record r).get_week_stats today
        = c.get_week_stats today + r.amount) ∧
    (∀ r : Record, Date.sub today r.date = 7 →
      (c.add_record r).get_week_stats today = c.get_week_stats today) ∧
    (∀ r : Record, Date.sub today r.date < 0 →
      (c.add_record r).get_week_stats today = c.get_week_stats today) := by
  refine ⟨get_week_stats_eq c today, fun r hr => ?_, fun r hr => ?_,
    fun r hr => ?_⟩
  · have hin : 0 ≤ Date.sub today r.date ∧ Date.sub today r.date < 7 := by
      rw [hr]; exact ⟨by norm_num, by norm_num⟩
    rw [get_week_stats_eq, get_week_stats_eq]
    simp [Calculator.add_record, List.filter_append, hin]
  · have hout : ¬ (0 ≤ Date.sub today r.date ∧ Date.sub today r.date < 7) := by
      rw [hr]; intro hc; exact absurd hc.2 (by norm_num)
    rw [get_week_stats_eq, get_week_stats_eq]
    simp [Calculator.add_record, List.filter_append, hout]
  · have hout : ¬ (0 ≤ Date.sub today r.date ∧ Date.sub today r.date < 7) := by
      intro hc; exact absurd hr (not_lt.mpr hc.1)
    rw [get_week_stats_eq, get_week_stats_eq]
    simp [Calculator.add_record, List.filter_append, hout]

/-- C2 witness: with today = 2024-03-10, a record dated 2024-03-04
(6 days before) is counted, one dated 2024-03-03 (7 days before) is not,
and one dated 2024-03-11 (future) is not. -/
theorem spec_C2_witness :
    ((Calculator.mk0 100).add_record ⟨5, "a", ⟨2024, 3, 4⟩⟩).get_week_stats
        ⟨2024, 3, 10⟩
      = (Calculator.mk0 100).get_week_stats ⟨2024, 3, 10⟩ + 5 ∧
    ((Calculator.mk0 100).add_record ⟨5, "b", ⟨2024, 3, 3⟩⟩).get_week_stats
        ⟨2024, 3, 10⟩
      = (Calculator.mk0 100).get_week_stats ⟨2024, 3, 10⟩ ∧
    ((Calculator.mk0 100).add_record ⟨5, "c", ⟨2024, 3, 11⟩⟩).get_week_stats
        ⟨2024, 3, 10⟩
      = (Calculator.mk0 100).get_week_stats ⟨2024, 3, 10⟩ :=
  ⟨(spec_C2 ⟨2024, 3, 10⟩ (Calculator.mk0 100)).2.1 ⟨5, "a", ⟨2024, 3, 4⟩⟩
      (by decide),
    (spec_C2 ⟨2024, 3, 10⟩ (Calculator.mk0 100)).2.2.1 ⟨5, "b", ⟨2024, 3, 3⟩⟩
      (by decide),
    (spec_C2 ⟨2024, 3, 10⟩ (Calculator.mk0 100)).2.2.2 ⟨5, "c", ⟨2024, 3, 11⟩⟩
      (by decide)⟩

/-- C8: on every CashCalculator state the overriding `get_week_stats`
returns Python None (`none`), discarding the base value, while the base
Calculator `get_week_stats` on the same state returns the week-window
sum. -/
theorem spec_C8 (c : Calculator) (today : Date) :
    CashCalculator.get_week_stats c today = none ∧
    Calculator.get_week_stats c today
      = ((c.records.filter (fun r =>
          decide (0 ≤ Date.sub today r.date ∧ Date.sub today r.date < 7))).map
          Record.amount).sum :=
  ⟨rfl, get_week_stats_eq c today⟩

/-- C3: with nonzero rates, `get_today_cash_remained` computes remaining
as limit minus the today sum; the usd branch divides by the usd rate
(class default 60) with label USD, the eur branch divides by the euro
rate (class default 70) with label Euro; the resulting message is chosen
by the sign of the converted remaining: the spend-up-to message with the
value rounded to 2 decimals when positive, the fixed no-money message
when zero, the debt message with the absolute value to 2 decimals when
negative. -/
theorem spec_C3 (c : Calculator) (today : Date) (usd_rate euro_rate : ℚ)
    (hu : usd_rate ≠ 0) (he : euro_rate ≠ 0) :
    (CashCalculator.USD_RATE = 60 ∧ CashCalculator.EURO_RATE = 70) ∧
    CashCalculator.get_today_cash_remained c today "usd" usd_rate euro_rate
      = some (CashCalculator.signMessage
          ((c.limit - c.get_today_stats today) / usd_rate) "USD") ∧
    CashCalculator.get_today_cash_remained c today "eur" usd_rate euro_rate
      = some (CashCalculator.signMessage
          ((c.limit - c.get_today_stats today) / euro_rate) "Euro") ∧
    (∀ v : ℚ, ∀ label : String,
      (0 < v → CashCalculator.signMessage v label
          = CashMsg.spendUpTo (round2 v) label) ∧
      (v = 0 → CashCalculator.signMessage v label = CashMsg.noMoney) ∧
      (v < 0 → CashCalculator.signMessage v label
          = CashMsg.debt (round2 (-v)) label)) := by
  refine ⟨⟨rfl, rfl⟩, ?_, ?_, ?_⟩
  · simp [CashCalculator.get_today_cash_remained, hu]
  · simp [CashCalculator.get_today_cash_remained, he]
  · intro v label
    refine ⟨fun h => ?_, fun h => ?_, fun h => ?_⟩
    · simp [CashCalculator.signMessage, h]
    · simp [CashCalculator.signMessage, h]
    · have h1 : ¬ v > 0 := not_lt.mpr h.le
      have h2 : v ≠ 0 := ne_of_lt h
      simp [CashCalculator.signMessage, h1, h2]

/-- C3 witness: limit 1000, 800 spent today, usd at rate 60: the usd
branch reports the converted remaining 200 / 60, and rounding that value
to 2 decimals gives 3.33. -/
theorem spec_C3_witness :
    CashCalculator.get_today_cash_remained
        ⟨1000, [⟨800, "spent", ⟨2024, 5, 20⟩⟩]⟩ ⟨2024, 5, 20⟩ "usd" 60 70
      = some (CashCalculator.signMessage
          ((1000 - Calculator.get_today_stats
              ⟨1000, [⟨800, "spent", ⟨2024, 5, 20⟩⟩]⟩ ⟨2024, 5, 20⟩) / 60)
            "USD") ∧
    round2 (200 / 60) = 333 / 100 := by
  constructor
  · exact (spec_C3 ⟨1000, [⟨800, "spent", ⟨2024, 5, 20⟩⟩]⟩ ⟨2024, 5, 20⟩
      60 70 (by norm_num) (by norm_num)).2.1
  · have hfl : ⌊(200 / 60 * 100 : ℚ)⌋ = 333 := by
      rw [Int.floor_eq_iff]
      norm_num
    rw [round2, roundHalfEven, hfl]
    norm_num

/-- C4: with currency exactly rub, the ruble branch applies no division to
the remaining value (its only numeric statement is a no-effect
comparison) and uses the display label руб; the reported amount is
limit minus the today sum, unconverted, for all rate arguments. -/
theorem spec_C4 (c : Calculator) (today : Date) (usd_rate euro_rate : ℚ) :
    CashCalculator.get_today_cash_remained c today "rub" usd_rate euro_rate
      = some (CashCalculator.signMessage (c.limit - c.get_today_stats today)
          "руб") := by
  simp [CashCalculator.get_today_cash_remained]

/-- C6: for every currency other than the case-sensitive literals usd,
eur, rub, `get_today_cash_remained` raises no error and applies no
conversion: it returns the sign-dispatched message built from the
unconverted remaining value, with the label still the raw input currency
string. -/
theorem spec_C6 (c : Calculator) (today : Date) (usd_rate euro_rate : ℚ)
    (currency : String) (h1 : currency ≠ "usd") (h2 : currency ≠ "eur")
    (h3 : currency ≠ "rub") :
    CashCalculator.get_today_cash_remained c today currency usd_rate euro_rate
      = some (CashCalculator.signMessage (c.limit - c.get_today_stats today)
          currency) := by
  simp [CashCalculator.get_today_cash_remained, h1, h2, h3]

/-- C6 witness: the uppercase string USD does not literal-match usd, so
even with both rates zero no conversion (and no error) happens and the
label is the raw input. -/
theorem spec_C6_witness :
    CashCalculator.get_today_cash_remained (Calculator.mk0 10) ⟨2024, 1, 2⟩
        "USD" 0 0
      = some (CashCalculator.signMessage
          ((Calculator.mk0 10).limit
            - (Calculator.mk0 10).get_today_stats ⟨2024, 1, 2⟩) "USD") :=
  spec_C6 (Calculator.mk0 10) ⟨2024, 1, 2⟩ 0 0 "USD" (by decide) (by decide)
    (by decide)

/-- C7: `get_calories_remained` computes remaining as limit minus the
today sum and reports it verbatim (no unit conversion) when positive,
otherwise the fixed stop-eating message. -/
theorem spec_C7 (c : Calculator) (today : Date) :
    (0 < c.limit - c.get_today_stats today →
      CaloriesCalculator.get_calories_remained c today
        = CaloriesMsg.canEat (c.limit - c.get_today_stats today)) ∧
    (c.limit - c.get_today_stats today ≤ 0 →
      CaloriesCalculator.get_calories_remained c today
        = CaloriesMsg.stopEating) := by
  constructor
  · intro h
    simp [CaloriesCalculator.get_calories_remained, h]
  · intro h
    simp [CaloriesCalculator.get_calories_remained, not_lt.mpr h]

/-- C7 witness: limit 2000 with 500 eaten today gives the message with
1500 kCal remaining; with 2000 eaten it gives the stop-eating message. -/
theorem spec_C7_witness :
    CaloriesCalculator.get_calories_remained
        ⟨2000, [⟨500, "food", ⟨2024, 5, 20⟩⟩]⟩ ⟨2024, 5, 20⟩
      = CaloriesMsg.canEat 1500 ∧
    CaloriesCalculator.get_calories_remained
        ⟨2000, [⟨2000, "food", ⟨2024, 5, 20⟩⟩]⟩ ⟨2024, 5, 20⟩
      = CaloriesMsg.stopEating := by
  have hs1 : Calculator.get_today_stats
      ⟨2000, [⟨500, "food", ⟨2024, 5, 20⟩⟩]⟩ ⟨2024, 5, 20⟩ = 500 := by
    simp [Calculator.get_today_stats]
  have hs2 : Calculator.get_today_stats
      ⟨2000, [⟨2000, "food", ⟨2024, 5, 20⟩⟩]⟩ ⟨2024, 5, 20⟩ = 2000 := by
    simp [Calculator.get_today_stats]
  constructor
  · have h := (spec_C7 ⟨2000, [⟨500, "food", ⟨2024, 5, 20⟩⟩]⟩
      ⟨2024, 5, 20⟩).1
    rw [hs1] at h
    have := h (by norm_num)
    rw [this]
    norm_num
  · have h := (spec_C7 ⟨2000, [⟨2000, "food", ⟨2024, 5, 20⟩⟩]⟩
      ⟨2024, 5, 20⟩).2
    rw [hs2] at h
    exact h (by norm_num)

/-- C10: the usd and eur branches divide by the given rate with no zero
guard: a zero rate is an uncaught division-by-zero error (`none`), while
with a nonzero rate the branch always produces a message. -/
theorem spec_C10 (c : Calculator) (today : Date) (usd_rate euro_rate : ℚ) :
    CashCalculator.get_today_cash_remained c today "usd" 0 euro_rate
      = none ∧
    CashCalculator.get_today_cash_remained c today "eur" usd_rate 0
      = none ∧
    (usd_rate ≠ 0 →
      (CashCalculator.get_today_cash_remained c today "usd" usd_rate
          euro_rate).isSome = true) ∧
    (euro_rate ≠ 0 →
      (CashCalculator.get_today_cash_remained c today "eur" usd_rate
          euro_rate).isSome = true) := by
  refine ⟨by simp [CashCalculator.get_today_cash_remained],
    by simp [CashCalculator.get_today_cash_remained],
    fun h => by simp [CashCalculator.get_today_cash_remained, h],
    fun h => by simp [CashCalculator.get_today_cash_remained, h]⟩

/-- C10 witness: usd with rate 0 fails with the division error; usd with
the default rate 60 succeeds. -/
theorem spec_C10_witness :
    CashCalculator.get_today_cash_remained (Calculator.mk0 100) ⟨2024, 1, 2⟩
        "usd" 0 70 = none ∧
    (CashCalculator.get_today_cash_remained (Calculator.mk0 100) ⟨2024, 1, 2⟩
        "usd" 60 70).isSome = true :=
  ⟨(spec_C10 (Calculator.mk0 100) ⟨2024, 1, 2⟩ 60 70).1,
    (spec_C10 (Calculator.mk0 100) ⟨2024, 1, 2⟩ 60 70).2.2.1 (by norm_num)⟩

/-- A decimal digit character contributes at most 9. -/
lemma digit_char_le (c : Char) (hc : c.isDigit = true) : c.toNat - 48 ≤ 9 := by
  simp [Char.isDigit] at hc
  obtain ⟨h1, h2⟩ := hc
  exact Nat.sub_le_of_le_add (le_trans h2 (by norm_num))

/-- The digit-accumulating fold is bounded by the number of digits. -/
lemma digits_foldl_lt (cs : List Char) (h : cs.all Char.isDigit = true)
    (a : ℕ) :
    cs.foldl (fun a c => a * 10 + (c.toNat - 48)) a
      < (a + 1) * 10 ^ cs.length := by
  induction cs generalizing a with
  | nil => simp
  | cons c cs ih =>
    simp only [List.all_cons, Bool.and_eq_true] at h
    have hd : c.toNat - 48 ≤ 9 := digit_char_le c h.1
    have hstep := ih h.2 (a * 10 + (c.toNat - 48))
    calc (c :: cs).foldl (fun a c => a * 10 + (c.toNat - 48)) a
        = cs.foldl (fun a c => a * 10 + (c.toNat - 48))
            (a * 10 + (c.toNat - 48)) := by simp
      _ < (a * 10 + (c.toNat - 48) + 1) * 10 ^ cs.length := hstep
      _ ≤ ((a + 1) * 10) * 10 ^ cs.length :=
          Nat.mul_le_mul_right _ (by omega)
      _ = (a + 1) * 10 ^ (c :: cs).length := by
          simp [pow_succ]
          ring

/-- The value of a digit field is below 10 to the number of digits. -/
lemma digitsToNat_lt (cs : List Char) (h : cs.all Char.isDigit = true) :
    digitsToNat cs < 10 ^ cs.length := by
  simpa [digitsToNat] using digits_foldl_lt cs h 0

/-- Inversion for `digitField`: success pins the length range, the digit
requirement and the value. -/
lemma digitField_eq_some (cs : List Char) (mn mx n : ℕ)
    (h : digitField cs mn mx = some n) :
    mn ≤ cs.length ∧ cs.length ≤ mx ∧ cs.all Char.isDigit = true ∧
      n = digitsToNat cs := by
  unfold digitField at h
  split at h
  · rename_i hc
    exact ⟨hc.1, hc.2.1, hc.2.2, (Option.some.inj h).symm⟩
  · exact absurd h (by simp)

/-- A successfully parsed date is a valid calendar date. -/
lemma strptimeDMY_valid (s : String) (d : Date)
    (h : strptimeDMY s = some d) : d.valid := by
  unfold strptimeDMY at h
  split at h
  · rename_i ds ms ys heq
    split at h
    · rename_i dd mm yy hds hms hys
      have hy := digitField_eq_some ys 4 4 yy hys
      have hylt : yy < 10 ^ (4 : ℕ) := by
        rw [hy.2.2.2]
        calc digitsToNat ys < 10 ^ ys.length := digitsToNat_lt ys hy.2.2.1
          _ ≤ 10 ^ (4 : ℕ) := Nat.pow_le_pow_right (by norm_num) hy.2.1
      split at h
      · rename_i hrange
        split at h
        · rename_i hdate
          cases h
          refine ⟨hdate.1, by norm_num at hylt; show yy ≤ 9999; omega, hrange.2.2.1,
            hrange.2.2.2, hrange.1, hdate.2⟩
        · exact absurd h (by simp)
      · exact absurd h (by simp)
    · exact absurd h (by simp)
  · exact absurd h (by simp)

/-- C5: Record construction resolves its date as follows: with the
(default) empty textual date the resolved date is the current date at
construction time; a supplied date string is parsed with the fixed
%d.%m.%Y format into a valid calendar date (no time-of-day is modelled);
a malformed nonempty date string fails with an unrecovered parse error
(`none`) propagating to the caller. -/
theorem spec_C5 (today : Date) (amount : ℚ) (comment : String) :
    Record.init today amount comment "" = some ⟨amount, comment, today⟩ ∧
    (∀ s : String, ∀ d : Date, strptimeDMY s = some d →
      Record.init today amount comment s = some ⟨amount, comment, d⟩ ∧
        d.valid) ∧
    (∀ s : String, strptimeDMY s = none → s ≠ "" →
      Record.init today amount comment s = none) := by
  have h0 : strptimeDMY "" = none := by decide
  refine ⟨by simp [Record.init], fun s d h => ?_, fun s h hs => ?_⟩
  · have hs : s ≠ "" := by
      intro he
      rw [he, h0] at h
      exact Option.noConfusion h
    rw [Record.init, if_neg hs, h]
    exact ⟨rfl, strptimeDMY_valid s d h⟩
  · rw [Record.init, if_neg hs, h]

/-- C5 witness: the leap day 29.02.2020 parses and is stored as the record
date; the malformed 31.04.2021 (April has 30 days) is a parse error. -/
theorem spec_C5_witness :
    Record.init ⟨2024, 1, 1⟩ 5 "x" "29.02.2020"
      = some ⟨5, "x", ⟨2020, 2, 29⟩⟩ ∧
    Record.init ⟨2024, 1, 1⟩ 5 "x" "31.04.2021" = none :=
  ⟨((spec_C5 ⟨2024, 1, 1⟩ 5 "x").2.1 "29.02.2020" ⟨2020, 2, 29⟩
      (by decide)).1,
    (spec_C5 ⟨2024, 1, 1⟩ 5 "x").2.2 "31.04.2021" (by decide) (by decide)⟩

/-- C9: constructing a Record with the empty-string date behaves exactly
like omitting the date (the source default is the empty string): the
resolved date is the current date, construction succeeds, and the empty
string is never given to the parser, which would reject it. -/
theorem spec_C9 (today : Date) (amount : ℚ) (comment : String) :
    Record.init today amount comment "" = some ⟨amount, comment, today⟩ ∧
    strptimeDMY "" = none :=
  ⟨by simp [Record.init], by decide⟩
